import Mathlib

/-!
Shallow embedding of `src/vs/editor/contrib/folding/browser/folding.ts`
(the `FoldingController` class) and verification of its specification.

The controller's collaborators (`FoldingModel`, `HiddenRangeModel`, the
indent folding strategy `computeRanges`/`limitByIndent`) live in files
outside this excerpt; where the controller's behaviour depends on them
they are modelled from the spec, as marked in the doc comments.
Asynchronous steps (`this.getFoldingModel().then(...)`) are embedded by
applying the continuation to the current folding model, which is the
state the continuation observes after the await.
-/

namespace Folding

/-- A character range as used by the editor (`IRange`). -/
structure Range where
  startLineNumber : Nat
  startColumn : Nat
  endLineNumber : Nat
  endColumn : Nat
deriving DecidableEq, Repr

/-- A folding region. Modelled from the spec: `FoldingRegion` (foldingModel.ts,
outside this excerpt) identifies a foldable span with a `collapsed` flag and an
opaque decoration handle linking it to a live decoration in the buffer. -/
structure FoldingRegion where
  startLineNumber : Nat
  endLineNumber : Nat
  isCollapsed : Bool
  editorDecorationId : Option Nat
deriving DecidableEq, Repr

/-- Whether a region's span contains the given line. -/
def containsLine (r : FoldingRegion) (line : Nat) : Bool :=
  r.startLineNumber ≤ line && line ≤ r.endLineNumber

/-- Modelled from the spec: the `FoldingModel` (foldingModel.ts, outside this
excerpt) owns the ordered sequence of regions. -/
structure FoldingModel where
  regions : List FoldingRegion
deriving DecidableEq, Repr

/-- Flip one region's collapsed flag. -/
def flipRegion (r : FoldingRegion) : FoldingRegion :=
  { r with isCollapsed := !r.isCollapsed }

/-- Modelled from the spec: `toggleCollapseState(list<Region>)` flips each
listed region's collapsed flag; no-op on the empty list (foldingModel.ts,
outside this excerpt). Regions are identified by value. -/
def FoldingModel.toggleCollapseState (m : FoldingModel) (toToggle : List FoldingRegion) :
    FoldingModel :=
  ⟨m.regions.map fun r => if r ∈ toToggle then flipRegion r else r⟩

/-- Step of the innermost-containing-region search: keep the containing
candidate with the larger start line. -/
def pickInner (best : Option FoldingRegion) (r : FoldingRegion) : Option FoldingRegion :=
  match best with
  | none => some r
  | some b => if b.startLineNumber < r.startLineNumber then some r else some b

/-- Modelled from the spec: `getRegionAtLine(line) -> Region | none`
(foldingModel.ts, outside this excerpt) resolves the region at a line; of the
regions whose span contains the line it returns the innermost one, i.e. the
one with the largest start line. -/
def FoldingModel.getRegionAtLine (m : FoldingModel) (line : Nat) : Option FoldingRegion :=
  (m.regions.filter fun r => containsLine r line).foldl pickInner none

/-- Modelled from the spec: `getAllRegionsAtLine(line, predicate)`
(foldingModel.ts, outside this excerpt) returns all regions whose span
contains the line and that satisfy the predicate. -/
def FoldingModel.getAllRegionsAtLine (m : FoldingModel) (line : Nat)
    (p : FoldingRegion → Bool) : List FoldingRegion :=
  m.regions.filter fun r => containsLine r line && p r

/-- A candidate folding range produced by the indent strategy
(`IndentRange`, indentFoldStrategy.ts, outside this excerpt). -/
structure IndentRange where
  startLineNumber : Nat
  endLineNumber : Nat
  indent : Nat
deriving DecidableEq, Repr

/-- The part of the text buffer model (`IModel`) the controller consumes:
line count, per-line max column, decoration lookup, and — abstracting the
pure range-computation collaborator `computeRanges(model)` of
indentFoldStrategy.ts — the candidate ranges computed from its content. -/
structure EditorModel where
  lineCount : Nat
  lineMaxColumn : Nat → Nat
  decorationRange : Nat → Option Range
  foldingRanges : List IndentRange

/-- Mouse target types distinguished by the controller (`MouseTargetType`). -/
inductive MouseTargetType where
  | GUTTER_LINE_DECORATIONS
  | CONTENT_EMPTY
  | CONTENT_TEXT
  | OTHER
deriving DecidableEq, Repr

/-- The gutter margin hit data (`IMarginData`). -/
structure MarginData where
  offsetX : Int
  glyphMarginWidth : Int
  lineNumbersWidth : Int
deriving DecidableEq, Repr

/-- The parts of `IEditorMouseEvent` the controller reads. -/
structure MouseEvent where
  targetType : MouseTargetType
  targetRange : Option Range
  leftButton : Bool
  detail : MarginData
  posy : Int
deriving DecidableEq, Repr

/-- A cursor selection; the controller reads only its selection-start line. -/
structure Selection where
  selectionStartLineNumber : Nat
deriving DecidableEq, Repr

/-- The parts of the host editor (`ICodeEditor`) the controller reads:
the attached model, the dom-node page top, the scrolled visible position
(top and height, as functions of a position's line and column), and the
live selections. -/
structure Editor where
  model : Option EditorModel
  domTop : Int
  visibleTop : Nat → Nat → Int
  visibleHeight : Nat → Nat → Int
  selections : List Selection

/-- The recorded gesture state (`mouseDownInfo`, folding.ts line 223). -/
structure MouseDownInfo where
  lineNumber : Nat
  iconClicked : Bool
deriving DecidableEq, Repr

/-- The controller state the verified operations touch: the host editor, the
enabled flag, the current folding model (the value the awaited
`foldingModelPromise` resolves to), the hidden-line query of the
`HiddenRangeModel`, and the pending gesture. -/
structure ControllerState where
  editor : Editor
  isEnabled : Bool
  foldingModel : FoldingModel
  hiddenLines : Nat → Bool
  mouseDownInfo : Option MouseDownInfo

/-- The horizontal offset within the gutter, folding.ts line 239. -/
def gutterOffsetX (e : MouseEvent) : Int :=
  e.detail.offsetX - e.detail.glyphMarginWidth - e.detail.lineNumbersWidth

/-- `onEditorMouseDown` (folding.ts lines 225-272). Its result is the new
`mouseDownInfo`; the field is set to null first, so the result never depends
on the previous gesture. The content branches read `this.editor.getModel()`
without a null check; the listener is only installed while a model is
attached (lines 145-172), so the model-absent case is unreachable there and
is embedded as recording no gesture. -/
def onEditorMouseDown (ed : Editor) (e : MouseEvent) : Option MouseDownInfo :=
  match e.targetRange with
  | none => none
  | some range =>
    if e.leftButton = false then none
    else
      match e.targetType with
      | MouseTargetType.GUTTER_LINE_DECORATIONS =>
        if gutterOffsetX e ≤ 12 then none
        else some { lineNumber := range.startLineNumber, iconClicked := true }
      | MouseTargetType.CONTENT_EMPTY =>
        match ed.model with
        | none => none
        | some model =>
          if range.startColumn = model.lineMaxColumn range.startLineNumber then
            if ed.domTop + ed.visibleTop range.endLineNumber range.endColumn
                + ed.visibleHeight range.endLineNumber range.endColumn < e.posy then none
            else some { lineNumber := range.startLineNumber, iconClicked := false }
          else none
      | MouseTargetType.CONTENT_TEXT =>
        match ed.model with
        | none => none
        | some model =>
          if range.startColumn = model.lineMaxColumn range.startLineNumber then
            some { lineNumber := range.startLineNumber, iconClicked := false }
          else none
      | MouseTargetType.OTHER => none

/-- The observable outcome of a mouse-up: the folding model after the awaited
continuation ran, and the line passed to `this.reveal`, if any. -/
structure MouseUpResult where
  foldingModel : FoldingModel
  revealedLine : Option Nat
deriving Repr

/-- `onEditorMouseUp` (folding.ts lines 274-307). The non-icon branch reads
the model without a null check; as for mouse-down, the listener only exists
while a model is attached, and the model-absent case is embedded as a no-op. -/
def onEditorMouseUp (c : ControllerState) (e : MouseEvent) : MouseUpResult :=
  match c.mouseDownInfo with
  | none => ⟨c.foldingModel, none⟩
  | some info =>
    match e.targetRange with
    | none => ⟨c.foldingModel, none⟩
    | some range =>
      if range.startLineNumber ≠ info.lineNumber then ⟨c.foldingModel, none⟩
      else
        let accept : Bool :=
          if info.iconClicked then
            decide (e.targetType = MouseTargetType.GUTTER_LINE_DECORATIONS)
          else
            match c.editor.model with
            | none => false
            | some model => decide (range.startColumn = model.lineMaxColumn info.lineNumber)
        if accept then
          match c.foldingModel.getRegionAtLine info.lineNumber with
          | none => ⟨c.foldingModel, none⟩
          | some region =>
            if info.iconClicked || region.isCollapsed then
              ⟨c.foldingModel.toggleCollapseState [region], some info.lineNumber⟩
            else ⟨c.foldingModel, none⟩
        else ⟨c.foldingModel, none⟩

/-- The serialized view state. JavaScript's `saveViewState` returns either an
empty object or an object with both fields; a field that is absent (or, for
`collapsedIndexes`, not an array) is embedded as `none`. -/
structure ViewState where
  collapsedIndexes : Option (List Nat)
  lineCount : Option Nat
deriving DecidableEq, Repr

/-- `saveViewState` (folding.ts lines 102-117): with no model it returns the
empty object; otherwise it collects, per collapsed region that has a
decoration whose range still resolves, the decoration range's start line. -/
def saveViewState (c : ControllerState) : ViewState :=
  match c.editor.model with
  | none => { collapsedIndexes := none, lineCount := none }
  | some model =>
    let collapsedIndexes := c.foldingModel.regions.filterMap fun region =>
      if region.isCollapsed then
        match region.editorDecorationId with
        | none => none
        | some id =>
          match model.decorationRange id with
          | none => none
          | some range => some range.startLineNumber
      else none
    { collapsedIndexes := some collapsedIndexes, lineCount := some model.lineCount }

/-- `restoreViewState` (folding.ts lines 122-143). Returns the folding model
after the operation; every rejected case returns it unchanged. The final
mutation runs in the awaited continuation, embedded as acting on the current
folding model. -/
def restoreViewState (c : ControllerState) (state : Option ViewState) : FoldingModel :=
  match c.editor.model with
  | none => c.foldingModel
  | some model =>
    if c.isEnabled = false then c.foldingModel
    else
      match state with
      | none => c.foldingModel
      | some s =>
        match s.collapsedIndexes with
        | none => c.foldingModel
        | some idxs =>
          if idxs.length = 0 ∨ s.lineCount ≠ some model.lineCount then c.foldingModel
          else
            let toToggle := idxs.filterMap fun index =>
              match c.foldingModel.getRegionAtLine index with
              | none => none
              | some region => if region.isCollapsed then none else some region
            c.foldingModel.toggleCollapseState toToggle

/-- `onModelChanged` (folding.ts lines 145-172): after disposing the previous
per-buffer state it returns early when folding is disabled or no model is
attached; only otherwise does it create the folding model, hidden range
model, schedulers and listeners. This embedding returns whether that
per-buffer state gets installed. -/
def onModelChangedInstalls (isEnabled : Bool) (model : Option EditorModel) : Bool :=
  isEnabled && model.isSome

/-- `MAX_FOLDING_REGIONS` (folding.ts line 34). -/
def MAX_FOLDING_REGIONS : Nat := 5000

/-- Largest cutoff level `d ≤ bound` such that keeping only the ranges of
indent below `d` fits within `maxEntries` (0 keeps nothing and always fits). -/
def indentCutoff (ranges : List IndentRange) (maxEntries : Nat) : Nat → Nat
  | 0 => 0
  | d + 1 =>
    if (ranges.filter fun r => r.indent < d + 1).length ≤ maxEntries then d + 1
    else indentCutoff ranges maxEntries d

/-- One more than the largest indent occurring in the list. -/
def maxIndentBound (ranges : List IndentRange) : Nat :=
  ranges.foldl (fun m r => max m (r.indent + 1)) 0

/-- Modelled from the spec: `limitByIndent` (indentFoldStrategy.ts, outside
this excerpt) caps the candidate count at a fixed maximum via a size-limiting
policy that favors shallower nesting when truncating: when over the cap it
keeps exactly the ranges below the largest indent cutoff whose kept count
fits the cap. -/
def limitByIndent (ranges : List IndentRange) (maxEntries : Nat) : List IndentRange :=
  if ranges.length ≤ maxEntries then ranges
  else ranges.filter fun r =>
    r.indent < indentCutoff ranges maxEntries (maxIndentBound ranges)

/-- The ascending-start-line order used by the sort at folding.ts line 178. -/
def startLE (a b : IndentRange) : Prop :=
  a.startLineNumber ≤ b.startLineNumber

instance : DecidableRel startLE := fun a b => Nat.decLe a.startLineNumber b.startLineNumber

instance : IsTotal IndentRange startLE :=
  ⟨fun a b => Nat.le_total a.startLineNumber b.startLineNumber⟩

instance : IsTrans IndentRange startLE :=
  ⟨fun _ _ _ h1 h2 => Nat.le_trans h1 h2⟩

/-- `FoldingController.computeRanges` (folding.ts lines 174-183): with a model,
the strategy's candidate ranges are capped by `limitByIndent` and sorted by
start line ascending; without a model the result is empty. JavaScript's
in-place comparator sort is embedded as an insertion sort over the same
order. -/
def computeRangesOfController (c : ControllerState) : List IndentRange :=
  match c.editor.model with
  | none => []
  | some model =>
    List.insertionSort startLE (limitByIndent model.foldingRanges MAX_FOLDING_REGIONS)

/-- The body of the loop in `revealCursor` (folding.ts lines 210-221) for one
selection: when the selection-start line is hidden, toggle all regions at
that line that are collapsed and start strictly above it. -/
def revealStep (c : ControllerState) (fm : FoldingModel) (sel : Selection) : FoldingModel :=
  let lineNumber := sel.selectionStartLineNumber
  if c.hiddenLines lineNumber then
    fm.toggleCollapseState (fm.getAllRegionsAtLine lineNumber fun r =>
      r.isCollapsed && decide (r.startLineNumber < lineNumber))
  else fm

/-- `revealCursor` (folding.ts lines 210-221): the deferred callback awaits
the folding model and walks the live selections. -/
def revealCursor (c : ControllerState) : FoldingModel :=
  c.editor.selections.foldl (revealStep c) c.foldingModel

/-- An editor event the controller's gesture state reacts to. -/
inductive EditorEvent where
  | down (e : MouseEvent)
  | up (e : MouseEvent)

/-- How one editor event transforms the controller state: a mouse-down
replaces the gesture record (folding.ts line 226 clears it before anything
else), a mouse-up runs the up-handler, which never writes the gesture record
but may replace the folding model. -/
def processEvent (c : ControllerState) (ev : EditorEvent) : ControllerState :=
  match ev with
  | EditorEvent.down e => { c with mouseDownInfo := onEditorMouseDown c.editor e }
  | EditorEvent.up e => { c with foldingModel := (onEditorMouseUp c e).foldingModel }

/-- Process a sequence of editor events in order. -/
def processEvents (c : ControllerState) (evs : List EditorEvent) : ControllerState :=
  evs.foldl processEvent c

/-! Concrete sample values used by the witness theorems. -/

/-- A concrete buffer model: 10 lines, every line of max column 5, one
decoration (id 1) sitting at lines 3-6. -/
def sampleModel : EditorModel where
  lineCount := 10
  lineMaxColumn := fun _ => 5
  decorationRange := fun id => if id = 1 then some ⟨3, 1, 6, 1⟩ else none
  foldingRanges := []

/-- A collapsed region at lines 3-6 carrying decoration id 1. -/
def sampleRegion : FoldingRegion := ⟨3, 6, true, some 1⟩

/-- A concrete host editor with `sampleModel` attached. -/
def sampleEditor : Editor where
  model := some sampleModel
  domTop := 0
  visibleTop := fun _ _ => 0
  visibleHeight := fun _ _ => 0
  selections := [⟨4⟩]

/-- A concrete controller state: folding enabled, one collapsed region at
lines 3-6, lines 4-6 hidden, an icon-click gesture recorded at line 3. -/
def sampleState : ControllerState where
  editor := sampleEditor
  isEnabled := true
  foldingModel := ⟨[sampleRegion]⟩
  hiddenLines := fun n => decide (4 ≤ n) && decide (n ≤ 6)
  mouseDownInfo := some ⟨3, true⟩

/-- A concrete editor without an attached model. -/
def detachedEditor : Editor where
  model := none
  domTop := 0
  visibleTop := fun _ _ => 0
  visibleHeight := fun _ _ => 0
  selections := []

/-- A concrete controller state without an attached model. -/
def detachedState : ControllerState where
  editor := detachedEditor
  isEnabled := true
  foldingModel := ⟨[sampleRegion]⟩
  hiddenLines := fun _ => false
  mouseDownInfo := none

/-- A left mouse-down on the folding icon: gutter target at line 3, gutter
offset 30 - 5 - 5 = 20 > 12. -/
def iconDownEvent : MouseEvent where
  targetType := MouseTargetType.GUTTER_LINE_DECORATIONS
  targetRange := some ⟨3, 1, 3, 1⟩
  leftButton := true
  detail := ⟨30, 5, 5⟩
  posy := 0

/-- A matching mouse-up on the gutter at line 3. -/
def iconUpEvent : MouseEvent where
  targetType := MouseTargetType.GUTTER_LINE_DECORATIONS
  targetRange := some ⟨3, 1, 3, 1⟩
  leftButton := true
  detail := ⟨30, 5, 5⟩
  posy := 0

/-- A mouse-up landing on a different line (7) than the recorded gesture. -/
def wrongLineUpEvent : MouseEvent where
  targetType := MouseTargetType.GUTTER_LINE_DECORATIONS
  targetRange := some ⟨7, 1, 7, 1⟩
  leftButton := true
  detail := ⟨30, 5, 5⟩
  posy := 0

/-- A right-button mouse-down on the gutter. -/
def rightDownEvent : MouseEvent where
  targetType := MouseTargetType.GUTTER_LINE_DECORATIONS
  targetRange := some ⟨3, 1, 3, 1⟩
  leftButton := false
  detail := ⟨30, 5, 5⟩
  posy := 0

/-! Theorems for the claims. -/

/-- C3: a mouse-down records gesture state only if it is a left-button event
with a target range that either hits the gutter margin with gutter offset
greater than 12 — then `iconClicked` is true — or hits the empty or
trailing-text region at the exact end-of-line (max) column of the target
line — then `iconClicked` is false; the recorded line is the target range's
start line. Any other down-event records no gesture. -/
theorem mouseDown_records_only_icon_or_eol (ed : Editor) (e : MouseEvent)
    (info : MouseDownInfo) (h : onEditorMouseDown ed e = some info) :
    ∃ range, e.targetRange = some range ∧ e.leftButton = true ∧
      info.lineNumber = range.startLineNumber ∧
      ((e.targetType = MouseTargetType.GUTTER_LINE_DECORATIONS ∧ 12 < gutterOffsetX e ∧
          info.iconClicked = true) ∨
        ((e.targetType = MouseTargetType.CONTENT_EMPTY ∨
            e.targetType = MouseTargetType.CONTENT_TEXT) ∧
          (∃ m, ed.model = some m ∧
            range.startColumn = m.lineMaxColumn range.startLineNumber) ∧
          info.iconClicked = false)) := by
  obtain ⟨tt, tr, lb, det, py⟩ := e
  cases tr with
  | none => exact Option.noConfusion h
  | some range =>
    refine ⟨range, rfl, ?_⟩
    cases lb with
    | false => exact Option.noConfusion h
    | true =>
      refine ⟨rfl, ?_⟩
      cases tt with
      | GUTTER_LINE_DECORATIONS =>
        by_cases hg : gutterOffsetX ⟨MouseTargetType.GUTTER_LINE_DECORATIONS,
            some range, true, det, py⟩ ≤ 12
        · simp only [onEditorMouseDown, if_neg, if_pos hg] at h
          exact Option.noConfusion h
        · simp only [onEditorMouseDown, if_neg hg] at h
          simp only [show (true = false) = False by simp, if_false] at h
          obtain rfl : ({ lineNumber := range.startLineNumber, iconClicked := true } :
              MouseDownInfo) = info := Option.some.inj h
          exact ⟨rfl, Or.inl ⟨rfl, lt_of_not_le hg, rfl⟩⟩
      | CONTENT_EMPTY =>
        cases hm : ed.model with
        | none => simp [onEditorMouseDown, hm] at h
        | some model =>
          simp only [onEditorMouseDown, hm] at h
          by_cases hc : range.startColumn = model.lineMaxColumn range.startLineNumber
          · rw [if_pos hc] at h
            by_cases hy : ed.domTop + ed.visibleTop range.endLineNumber range.endColumn
                + ed.visibleHeight range.endLineNumber range.endColumn < py
            · rw [if_pos hy] at h; exact Option.noConfusion h
            · rw [if_neg hy] at h
              obtain rfl : ({ lineNumber := range.startLineNumber, iconClicked := false } :
                  MouseDownInfo) = info := Option.some.inj h
              exact ⟨rfl, Or.inr ⟨Or.inl rfl, ⟨model, rfl, hc⟩, rfl⟩⟩
          · rw [if_neg hc] at h; exact Option.noConfusion h
      | CONTENT_TEXT =>
        cases hm : ed.model with
        | none => simp [onEditorMouseDown, hm] at h
        | some model =>
          simp only [onEditorMouseDown, hm] at h
          by_cases hc : range.startColumn = model.lineMaxColumn range.startLineNumber
          · rw [if_pos hc] at h
            obtain rfl : ({ lineNumber := range.startLineNumber, iconClicked := false } :
                MouseDownInfo) = info := Option.some.inj h
            exact ⟨rfl, Or.inr ⟨Or.inr rfl, ⟨model, rfl, hc⟩, rfl⟩⟩
          · rw [if_neg hc] at h; exact Option.noConfusion h
      | OTHER => exact Option.noConfusion h

/-- C3 witness: the concrete icon mouse-down on `sampleEditor` records the
gesture at line 3 with `iconClicked` true, and the theorem's conclusion holds
of it. -/
theorem mouseDown_records_only_icon_or_eol_witness :
    ∃ range, iconDownEvent.targetRange = some range ∧ iconDownEvent.leftButton = true ∧
      (MouseDownInfo.mk 3 true).lineNumber = range.startLineNumber ∧
      ((iconDownEvent.targetType = MouseTargetType.GUTTER_LINE_DECORATIONS ∧
          12 < gutterOffsetX iconDownEvent ∧ (MouseDownInfo.mk 3 true).iconClicked = true) ∨
        ((iconDownEvent.targetType = MouseTargetType.CONTENT_EMPTY ∨
            iconDownEvent.targetType = MouseTargetType.CONTENT_TEXT) ∧
          (∃ m, sampleEditor.model = some m ∧
            range.startColumn = m.lineMaxColumn range.startLineNumber) ∧
          (MouseDownInfo.mk 3 true).iconClicked = false)) :=
  mouseDown_records_only_icon_or_eol sampleEditor iconDownEvent ⟨3, true⟩ (by decide)

/-- C10: a mouse-down without a left-button press, or without a target range,
records no gesture state; and with no gesture state recorded, the subsequent
mouse-up changes no region's collapse state and reveals nothing. -/
theorem nonqualifying_down_never_toggles (ed : Editor) (e : MouseEvent)
    (h : e.leftButton = false ∨ e.targetRange = none) :
    onEditorMouseDown ed e = none ∧
      ∀ c : ControllerState, ∀ e2 : MouseEvent, c.mouseDownInfo = none →
        (onEditorMouseUp c e2).foldingModel = c.foldingModel ∧
          (onEditorMouseUp c e2).revealedLine = none := by
  constructor
  · obtain ⟨tt, tr, lb, det, py⟩ := e
    cases tr with
    | none => cases tt <;> rfl
    | some range =>
      rcases h with h | h
      · cases h
        cases tt <;> simp [onEditorMouseDown]
      · exact Option.noConfusion h
  · intro c e2 hinfo
    simp [onEditorMouseUp, hinfo]

/-- C10 witness: the concrete right-button gutter mouse-down records nothing,
and a mouse-up on the detached-gesture state is a no-op. -/
theorem nonqualifying_down_never_toggles_witness :
    onEditorMouseDown sampleEditor rightDownEvent = none ∧
      ∀ c : ControllerState, ∀ e2 : MouseEvent, c.mouseDownInfo = none →
        (onEditorMouseUp c e2).foldingModel = c.foldingModel ∧
          (onEditorMouseUp c e2).revealedLine = none :=
  nonqualifying_down_never_toggles sampleEditor rightDownEvent (Or.inl rfl)

/-- C2: a mouse-up following a recorded gesture at line L is discarded — the
folding model is unchanged and nothing is revealed — whenever its target has
no range, or the target range starts on a different line, or the recorded
gesture was an icon click and the up target is not the gutter
line-decorations margin, or the gesture was a non-icon click and the up
target's start column is not the end-of-line (max) column of line L. -/
theorem mouseUp_mismatch_discards (c : ControllerState) (e : MouseEvent)
    (info : MouseDownInfo) (hinfo : c.mouseDownInfo = some info) :
    (e.targetRange = none → onEditorMouseUp c e = ⟨c.foldingModel, none⟩) ∧
      (∀ range, e.targetRange = some range → range.startLineNumber ≠ info.lineNumber →
        onEditorMouseUp c e = ⟨c.foldingModel, none⟩) ∧
      (∀ range, e.targetRange = some range → info.iconClicked = true →
        e.targetType ≠ MouseTargetType.GUTTER_LINE_DECORATIONS →
        onEditorMouseUp c e = ⟨c.foldingModel, none⟩) ∧
      (∀ range m, e.targetRange = some range → info.iconClicked = false →
        c.editor.model = some m → range.startColumn ≠ m.lineMaxColumn info.lineNumber →
        onEditorMouseUp c e = ⟨c.foldingModel, none⟩) := by
  refine ⟨?_, ?_, ?_, ?_⟩
  · intro hr
    simp only [onEditorMouseUp, hinfo, hr]
  · intro range hr hne
    simp only [onEditorMouseUp, hinfo, hr, if_pos hne]
  · intro range hr hicon htt
    simp only [onEditorMouseUp, hinfo, hr, hicon]
    by_cases hne : range.startLineNumber ≠ info.lineNumber
    · rw [if_pos hne]
    · rw [if_neg hne]
      simp [htt]
  · intro range m hr hicon hm hcol
    simp only [onEditorMouseUp, hinfo, hr, hicon, hm]
    by_cases hne : range.startLineNumber ≠ info.lineNumber
    · rw [if_pos hne]
    · rw [if_neg hne]
      simp [hcol]

/-- C2 witness: on `sampleState` (gesture recorded at line 3), the concrete
mouse-up at line 7 is discarded without any state change. -/
theorem mouseUp_mismatch_discards_witness :
    onEditorMouseUp sampleState wrongLineUpEvent =
      ⟨sampleState.foldingModel, none⟩ :=
  (mouseUp_mismatch_discards sampleState wrongLineUpEvent ⟨3, true⟩ rfl).2.1
    ⟨7, 1, 7, 1⟩ rfl (by decide)

/-- C9: with no attached model, `saveViewState` returns the empty object,
`restoreViewState` leaves the folding model untouched for every snapshot,
and the model-change handler installs no per-buffer state or subscriptions.
All three embedded operations are total functions, so none of them throws. -/
theorem no_model_all_noop (c : ControllerState) (h : c.editor.model = none) :
    saveViewState c = { collapsedIndexes := none, lineCount := none } ∧
      (∀ s, restoreViewState c s = c.foldingModel) ∧
      onModelChangedInstalls c.isEnabled c.editor.model = false := by
  refine ⟨?_, ?_, ?_⟩
  · simp only [saveViewState, h]
  · intro s
    simp only [restoreViewState, h]
  · simp [onModelChangedInstalls, h]

/-- C9 witness: on the concrete detached controller state, save returns the
empty object, restore with the sample snapshot changes nothing, and no
per-buffer state is installed. -/
theorem no_model_all_noop_witness :
    saveViewState detachedState = { collapsedIndexes := none, lineCount := none } ∧
      restoreViewState detachedState (some ⟨some [3], some 10⟩) =
        detachedState.foldingModel ∧
      onModelChangedInstalls detachedState.isEnabled detachedState.editor.model = false :=
  ⟨(no_model_all_noop detachedState rfl).1,
    (no_model_all_noop detachedState rfl).2.1 (some ⟨some [3], some 10⟩),
    (no_model_all_noop detachedState rfl).2.2⟩

/-- C4: `restoreViewState` performs no collapse-state mutation when the state
is absent, when `collapsedIndexes` is not an array, when `collapsedIndexes`
is empty, or when the recorded `lineCount` differs from the live buffer's
current line count; in each case the folding model is returned unchanged
(never partially applied), and the embedded operation is a total function,
so it never throws. -/
theorem restore_rejects_malformed (c : ControllerState) (state : Option ViewState)
    (h : state = none ∨
      (∃ s, state = some s ∧ s.collapsedIndexes = none) ∨
      (∃ s, state = some s ∧ s.collapsedIndexes = some []) ∨
      (∃ s, state = some s ∧
        ∀ m, c.editor.model = some m → s.lineCount ≠ some m.lineCount)) :
    restoreViewState c state = c.foldingModel := by
  cases hm : c.editor.model with
  | none => simp only [restoreViewState, hm]
  | some model =>
    by_cases hen : c.isEnabled = false
    · simp only [restoreViewState, hm, if_pos hen]
    · rcases h with h | ⟨s, hs, hidx⟩ | ⟨s, hs, hidx⟩ | ⟨s, hs, hlc⟩
      · simp only [restoreViewState, hm, if_neg hen, h]
      · simp only [restoreViewState, hm, if_neg hen, hs, hidx]
      · simp only [restoreViewState, hm, if_neg hen, hs, hidx]
        simp
      · cases hidx : s.collapsedIndexes with
        | none => simp only [restoreViewState, hm, if_neg hen, hs, hidx]
        | some idxs =>
          simp only [restoreViewState, hm, if_neg hen, hs, hidx]
          rw [if_pos (Or.inr (hlc model hm))]

/-- C4 witness: restoring an absent snapshot on the concrete sample state
leaves the folding model unchanged. -/
theorem restore_rejects_malformed_witness :
    restoreViewState sampleState none = sampleState.foldingModel :=
  restore_rejects_malformed sampleState none (Or.inl rfl)

/-- Toggling a single region flips exactly the occurrences of that region
value and leaves every other entry unchanged. -/
lemma toggle_singleton (m : FoldingModel) (region : FoldingRegion) :
    (m.toggleCollapseState [region]).regions =
      m.regions.map fun x => if x = region then flipRegion region else x := by
  unfold FoldingModel.toggleCollapseState
  have hfun : (fun x => if x ∈ [region] then flipRegion x else x) =
      fun x => if x = region then flipRegion region else x := by
    funext x
    by_cases hx : x = region
    · subst hx; simp
    · simp [hx]
  rw [hfun]

/-- Toggling the sublist of regions selected by a Boolean predicate flips
exactly the entries satisfying the predicate. -/
lemma toggle_filter (fm : FoldingModel) (q : FoldingRegion → Bool) :
    (fm.toggleCollapseState (fm.regions.filter q)).regions =
      fm.regions.map fun r => if q r then flipRegion r else r := by
  unfold FoldingModel.toggleCollapseState
  apply List.map_congr_left
  intro x hx
  by_cases hq : q x
  · rw [if_pos (List.mem_filter.mpr ⟨hx, hq⟩), if_pos hq]
  · rw [if_neg (fun hmem => hq (List.mem_filter.mp hmem).2), if_neg hq]

/-- C1: for an accepted mouse-up gesture at line L — a gesture recorded at L,
the up target on the same line, on the gutter line-decorations margin for an
icon click, at the end-of-line column for a non-icon click — after awaiting
the folding model: if a region exists at L and the gesture was an icon click
or that region is collapsed, exactly that region's collapse flag is toggled
and a reveal of line L is triggered; if the gesture was a non-icon click and
the region at L is expanded, no region's collapse state changes and nothing
is revealed. -/
theorem mouseUp_accepted_toggles (c : ControllerState) (e : MouseEvent)
    (info : MouseDownInfo) (range : Range)
    (hinfo : c.mouseDownInfo = some info)
    (hrange : e.targetRange = some range)
    (hline : range.startLineNumber = info.lineNumber)
    (hicon : info.iconClicked = true →
      e.targetType = MouseTargetType.GUTTER_LINE_DECORATIONS)
    (hplain : info.iconClicked = false → ∃ m, c.editor.model = some m ∧
      range.startColumn = m.lineMaxColumn info.lineNumber) :
    ∀ region, c.foldingModel.getRegionAtLine info.lineNumber = some region →
      ((info.iconClicked = true ∨ region.isCollapsed = true) →
        (onEditorMouseUp c e).foldingModel.regions =
          c.foldingModel.regions.map
            (fun x => if x = region then flipRegion region else x) ∧
        (onEditorMouseUp c e).revealedLine = some info.lineNumber) ∧
      (info.iconClicked = false → region.isCollapsed = false →
        (onEditorMouseUp c e).foldingModel = c.foldingModel ∧
        (onEditorMouseUp c e).revealedLine = none) := by
  intro region hreg
  cases hic : info.iconClicked with
  | true =>
    have htt := hicon hic
    have hred : onEditorMouseUp c e =
        ⟨c.foldingModel.toggleCollapseState [region], some info.lineNumber⟩ := by
      simp [onEditorMouseUp, hinfo, hrange, hline, hic, htt, hreg]
    constructor
    · intro _
      rw [hred]
      exact ⟨toggle_singleton c.foldingModel region, rfl⟩
    · intro hf
      exact Bool.noConfusion hf
  | false =>
    obtain ⟨m, hm, hcol⟩ := hplain hic
    cases hcoll : region.isCollapsed with
    | true =>
      have hred : onEditorMouseUp c e =
          ⟨c.foldingModel.toggleCollapseState [region], some info.lineNumber⟩ := by
        simp [onEditorMouseUp, hinfo, hrange, hline, hic, hm, hcol, hreg, hcoll]
      constructor
      · intro _
        rw [hred]
        exact ⟨toggle_singleton c.foldingModel region, rfl⟩
      · intro _ hf
        exact Bool.noConfusion hf
    | false =>
      have hred : onEditorMouseUp c e = ⟨c.foldingModel, none⟩ := by
        simp [onEditorMouseUp, hinfo, hrange, hline, hic, hm, hcol, hreg, hcoll]
      constructor
      · intro hdisj
        rcases hdisj with hf | hf
        · exact Bool.noConfusion hf
        · exact Bool.noConfusion hf
      · intro _ _
        rw [hred]
        exact ⟨rfl, rfl⟩

/-- C1 witness: on the concrete sample state (icon gesture at line 3, region
3-6 collapsed), the matching gutter mouse-up toggles exactly that region and
reveals line 3. -/
theorem mouseUp_accepted_toggles_witness :
    (onEditorMouseUp sampleState iconUpEvent).foldingModel.regions =
      sampleState.foldingModel.regions.map
        (fun x => if x = sampleRegion then flipRegion sampleRegion else x) ∧
    (onEditorMouseUp sampleState iconUpEvent).revealedLine = some 3 :=
  (mouseUp_accepted_toggles sampleState iconUpEvent ⟨3, true⟩ ⟨3, 1, 3, 1⟩ rfl rfl rfl
    (fun _ => rfl) (fun h => nomatch h) sampleRegion (by decide)).1 (Or.inl rfl)

/-- Helper for C7: a run of reveal steps over selections on visible lines
changes nothing. -/
lemma foldl_revealStep_of_visible (c : ControllerState) :
    ∀ (l : List Selection) (fm : FoldingModel),
      (∀ sel ∈ l, c.hiddenLines sel.selectionStartLineNumber = false) →
      l.foldl (revealStep c) fm = fm := by
  intro l
  induction l with
  | nil => intro fm _; rfl
  | cons s t ih =>
    intro fm h
    have hs : revealStep c fm s = fm := by
      simp [revealStep, h s (List.mem_cons_self s t)]
    rw [List.foldl_cons, hs]
    exact ih fm fun x hx => h x (List.mem_cons_of_mem s hx)

/-- C7: in the deferred reveal callback, a selection whose selection-start
line L is hidden toggles open exactly the regions at L that are collapsed
and start strictly above L (every enclosing collapsed region); a selection on
a visible line changes nothing, and if every selection is on a visible line
the whole callback mutates nothing. -/
theorem revealCursor_expands_enclosing (c : ControllerState) :
    (∀ fm sel, c.hiddenLines sel.selectionStartLineNumber = false →
      revealStep c fm sel = fm) ∧
    (∀ fm sel, c.hiddenLines sel.selectionStartLineNumber = true →
      (revealStep c fm sel).regions = fm.regions.map fun r =>
        if containsLine r sel.selectionStartLineNumber &&
            (r.isCollapsed && decide (r.startLineNumber < sel.selectionStartLineNumber)) then
          flipRegion r
        else r) ∧
    ((∀ sel ∈ c.editor.selections, c.hiddenLines sel.selectionStartLineNumber = false) →
      revealCursor c = c.foldingModel) := by
  refine ⟨?_, ?_, ?_⟩
  · intro fm sel h
    simp [revealStep, h]
  · intro fm sel h
    rw [show revealStep c fm sel = fm.toggleCollapseState
        (fm.getAllRegionsAtLine sel.selectionStartLineNumber fun r =>
          r.isCollapsed && decide (r.startLineNumber < sel.selectionStartLineNumber))
      from by simp [revealStep, h]]
    exact toggle_filter fm _
  · intro h
    exact foldl_revealStep_of_visible c c.editor.selections c.foldingModel h

/-- C7 witness: on the concrete sample state, the selection at hidden line 4
expands the collapsed region 3-6 that starts above it. -/
theorem revealCursor_expands_enclosing_witness :
    (revealStep sampleState sampleState.foldingModel ⟨4⟩).regions =
      sampleState.foldingModel.regions.map fun r =>
        if containsLine r 4 && (r.isCollapsed && decide (r.startLineNumber < 4)) then
          flipRegion r
        else r :=
  (revealCursor_expands_enclosing sampleState).2.1 sampleState.foldingModel ⟨4⟩ rfl

/-- Editor events never change the host editor the controller reads. -/
lemma processEvent_editor (c : ControllerState) (ev : EditorEvent) :
    (processEvent c ev).editor = c.editor := by
  cases ev <;> rfl

/-- Helper for C8: processing any event sequence preserves the host editor. -/
lemma processEvents_editor (evs : List EditorEvent) :
    ∀ c : ControllerState, (processEvents c evs).editor = c.editor := by
  induction evs with
  | nil => intro c; rfl
  | cons ev t ih =>
    intro c
    show (processEvents (processEvent c ev) t).editor = c.editor
    rw [ih (processEvent c ev), processEvent_editor]

/-- C8: the gesture record is overwritten as the first step of every
mouse-down: after any event history followed by a mouse-down, the recorded
gesture is exactly what that mouse-down alone records — stale gesture state
never survives a mouse-down, qualifying or not. A mouse-up never writes the
gesture record. -/
theorem gesture_state_fresh_per_down (c : ControllerState) (evs : List EditorEvent)
    (e : MouseEvent) :
    (processEvents c (evs ++ [EditorEvent.down e])).mouseDownInfo =
      onEditorMouseDown c.editor e ∧
    ∀ e2, (processEvent c (EditorEvent.up e2)).mouseDownInfo = c.mouseDownInfo := by
  constructor
  · show ((evs ++ [EditorEvent.down e]).foldl processEvent c).mouseDownInfo = _
    rw [List.foldl_append]
    show (processEvent (processEvents c evs) (EditorEvent.down e)).mouseDownInfo = _
    show onEditorMouseDown (processEvents c evs).editor e = _
    rw [processEvents_editor]
  · intro e2
    rfl

/-- Helper for C6: the cutoff search never keeps more than `maxEntries`. -/
lemma filter_indentCutoff_le (ranges : List IndentRange) (maxEntries : Nat) :
    ∀ d, (ranges.filter fun r =>
      r.indent < indentCutoff ranges maxEntries d).length ≤ maxEntries := by
  intro d
  induction d with
  | zero =>
    have : (ranges.filter fun r => r.indent < indentCutoff ranges maxEntries 0) = [] := by
      simp [indentCutoff]
    rw [this]
    exact Nat.zero_le _
  | succ d ih =>
    rw [indentCutoff]
    by_cases h : (ranges.filter fun r => r.indent < d + 1).length ≤ maxEntries
    · rw [if_pos h]
      exact h
    · rw [if_neg h]
      exact ih

/-- Helper for C6: `limitByIndent` caps the result at `maxEntries`. -/
lemma limitByIndent_length_le (ranges : List IndentRange) (maxEntries : Nat) :
    (limitByIndent ranges maxEntries).length ≤ maxEntries := by
  unfold limitByIndent
  by_cases h : ranges.length ≤ maxEntries
  · rw [if_pos h]
    exact h
  · rw [if_neg h]
    exact filter_indentCutoff_le ranges maxEntries _

/-- C6: for every controller state, the computed candidate list holds at most
`MAX_FOLDING_REGIONS` (5000) ranges — so with 6000 candidates at most 5000
remain — and is sorted in ascending order of start line. -/
theorem computeRanges_capped_and_sorted (c : ControllerState) :
    (computeRangesOfController c).length ≤ MAX_FOLDING_REGIONS ∧
    List.Sorted startLE (computeRangesOfController c) := by
  cases hm : c.editor.model with
  | none =>
    constructor
    · simp [computeRangesOfController, hm]
    · simp [computeRangesOfController, hm]
  | some model =>
    constructor
    · simp only [computeRangesOfController, hm]
      rw [List.length_insertionSort]
      exact limitByIndent_length_le model.foldingRanges MAX_FOLDING_REGIONS
    · simp only [computeRangesOfController, hm]
      exact List.sorted_insertionSort startLE _

/-- Helper for C5: folding `pickInner` from a `some` accumulator yields an
element drawn from the accumulator or the list whose start line dominates
the accumulator's and every list element's. -/
lemma foldl_pickInner_some (l : List FoldingRegion) :
    ∀ b : FoldingRegion, ∃ x, l.foldl pickInner (some b) = some x ∧
      (x = b ∨ x ∈ l) ∧ b.startLineNumber ≤ x.startLineNumber ∧
      ∀ y ∈ l, y.startLineNumber ≤ x.startLineNumber := by
  induction l with
  | nil =>
    intro b
    exact ⟨b, rfl, Or.inl rfl, Nat.le_refl _, fun y hy => absurd hy (List.not_mem_nil y)⟩
  | cons r t ih =>
    intro b
    rw [List.foldl_cons]
    by_cases hbr : b.startLineNumber < r.startLineNumber
    · have hp : pickInner (some b) r = some r := by simp [pickInner, hbr]
      rw [hp]
      obtain ⟨x, hx, hmem, hle, hall⟩ := ih r
      refine ⟨x, hx, ?_, Nat.le_trans (Nat.le_of_lt hbr) hle, ?_⟩
      · rcases hmem with h | h
        · exact Or.inr (h ▸ List.mem_cons_self r t)
        · exact Or.inr (List.mem_cons_of_mem r h)
      · intro y hy
        rcases List.mem_cons.mp hy with h | h
        · exact h ▸ hle
        · exact hall y h
    · have hp : pickInner (some b) r = some b := by simp [pickInner, hbr]
      rw [hp]
      obtain ⟨x, hx, hmem, hle, hall⟩ := ih b
      refine ⟨x, hx, ?_, hle, ?_⟩
      · rcases hmem with h | h
        · exact Or.inl h
        · exact Or.inr (List.mem_cons_of_mem r h)
      · intro y hy
        rcases List.mem_cons.mp hy with h | h
        · exact h ▸ Nat.le_trans (Nat.le_of_not_lt hbr) hle
        · exact hall y h

/-- Helper for C5: when the model's regions have well-formed spans and
pairwise distinct start lines, `getRegionAtLine` at a region's start line
resolves exactly that region. -/
lemma getRegionAtLine_of_start (m : FoldingModel) (r : FoldingRegion)
    (hmem : r ∈ m.regions)
    (hwf : ∀ x ∈ m.regions, x.startLineNumber ≤ x.endLineNumber)
    (hdist : m.regions.Pairwise fun a b => a.startLineNumber ≠ b.startLineNumber) :
    m.getRegionAtLine r.startLineNumber = some r := by
  have hcont : containsLine r r.startLineNumber = true := by
    simp [containsLine, hwf r hmem]
  have hrf : r ∈ m.regions.filter fun x => containsLine x r.startLineNumber :=
    List.mem_filter.mpr ⟨hmem, hcont⟩
  unfold FoldingModel.getRegionAtLine
  cases hl : m.regions.filter fun x => containsLine x r.startLineNumber with
  | nil => rw [hl] at hrf; exact absurd hrf (List.not_mem_nil r)
  | cons a t =>
    rw [hl] at hrf
    rw [List.foldl_cons]
    have hstep : pickInner none a = some a := rfl
    rw [hstep]
    obtain ⟨x, hx, hmemx, hlex, hall⟩ := foldl_pickInner_some t a
    rw [hx]
    have hxl : x ∈ m.regions.filter fun y => containsLine y r.startLineNumber := by
      rw [hl]
      rcases hmemx with h | h
      · exact h ▸ List.mem_cons_self a t
      · exact List.mem_cons_of_mem a h
    have hxreg : x ∈ m.regions := (List.mem_filter.mp hxl).1
    have hxcont := (List.mem_filter.mp hxl).2
    have hxle : x.startLineNumber ≤ r.startLineNumber := by
      have hc := hxcont
      simp only [containsLine, Bool.and_eq_true, decide_eq_true_eq] at hc
      exact hc.1
    have hrle : r.startLineNumber ≤ x.startLineNumber := by
      rcases List.mem_cons.mp hrf with h | h
      · exact h ▸ hlex
      · exact hall r h
    by_cases hxr : x = r
    · rw [hxr]
    · exfalso
      have hsym : Symmetric fun a b : FoldingRegion =>
          a.startLineNumber ≠ b.startLineNumber :=
        fun _ _ hxy hne => hxy hne.symm
      exact hdist.forall hsym hxreg hmem hxr (Nat.le_antisymm hxle hrle)

/-- C5: on an unmodified buffer — folding enabled, every region's decoration
still resolving to the region's own start line, spans well-formed, start
lines pairwise distinct — restoring the snapshot produced by `saveViewState`
returns the folding model completely unchanged: every region collapsed in
the snapshot is still collapsed and no expanded region becomes collapsed. -/
theorem save_restore_roundtrip (c : ControllerState) (model : EditorModel)
    (hm : c.editor.model = some model)
    (hen : c.isEnabled = true)
    (hwf : ∀ x ∈ c.foldingModel.regions, x.startLineNumber ≤ x.endLineNumber)
    (hdist : c.foldingModel.regions.Pairwise
      fun a b => a.startLineNumber ≠ b.startLineNumber)
    (hdeco : ∀ x ∈ c.foldingModel.regions, x.isCollapsed = true →
      ∀ id, x.editorDecorationId = some id →
      ∀ rg, model.decorationRange id = some rg →
        rg.startLineNumber = x.startLineNumber) :
    restoreViewState c (some (saveViewState c)) = c.foldingModel := by
  have hen' : ¬ c.isEnabled = false := by rw [hen]; exact Bool.noConfusion
  have hsave : saveViewState c =
      { collapsedIndexes := some (c.foldingModel.regions.filterMap fun region =>
          if region.isCollapsed then
            match region.editorDecorationId with
            | none => none
            | some id =>
              match model.decorationRange id with
              | none => none
              | some range => some range.startLineNumber
          else none),
        lineCount := some model.lineCount } := by
    simp only [saveViewState, hm]
  set idxs := c.foldingModel.regions.filterMap fun region =>
    if region.isCollapsed then
      match region.editorDecorationId with
      | none => none
      | some id =>
        match model.decorationRange id with
        | none => none
        | some range => some range.startLineNumber
    else none with hidxs
  have hmem_idx : ∀ i ∈ idxs, ∃ x ∈ c.foldingModel.regions,
      x.isCollapsed = true ∧ i = x.startLineNumber := by
    intro i hi
    rw [hidxs] at hi
    obtain ⟨x, hxmem, hxf⟩ := List.mem_filterMap.mp hi
    by_cases hcoll : x.isCollapsed = true
    · rw [if_pos hcoll] at hxf
      cases hdecid : x.editorDecorationId with
      | none =>
        simp only [hdecid] at hxf
        exact Option.noConfusion hxf
      | some id =>
        simp only [hdecid] at hxf
        cases hrg : model.decorationRange id with
        | none =>
          simp only [hrg] at hxf
          exact Option.noConfusion hxf
        | some rg =>
          simp only [hrg, Option.some.injEq] at hxf
          exact ⟨x, hxmem, hcoll, by
            rw [← hxf, hdeco x hxmem hcoll id hdecid rg hrg]⟩
    · rw [if_neg hcoll] at hxf
      exact absurd hxf Option.noConfusion
  have htoggle_nil : (idxs.filterMap fun index =>
      match c.foldingModel.getRegionAtLine index with
      | none => none
      | some region => if region.isCollapsed then none else some region) = [] := by
    rw [List.filterMap_eq_nil_iff]
    intro i hi
    obtain ⟨x, hxmem, hxcoll, hieq⟩ := hmem_idx i hi
    have hres : c.foldingModel.getRegionAtLine i = some x := by
      rw [hieq]
      exact getRegionAtLine_of_start c.foldingModel x hxmem hwf hdist
    simp [hres, hxcoll]
  rw [hsave]
  by_cases hnil : idxs.length = 0
  · simp only [restoreViewState, hm, if_neg hen', if_pos (Or.inl hnil)]
  · have hcond : ¬ (idxs.length = 0 ∨
        (some model.lineCount : Option Nat) ≠ some model.lineCount) := by
      intro h
      rcases h with h | h
      · exact hnil h
      · exact h rfl
    simp only [restoreViewState, hm, if_neg hen', if_neg hcond, htoggle_nil]
    show c.foldingModel.toggleCollapseState [] = c.foldingModel
    unfold FoldingModel.toggleCollapseState
    have : (c.foldingModel.regions.map fun r =>
        if r ∈ ([] : List FoldingRegion) then flipRegion r else r) =
        c.foldingModel.regions := by
      rw [show (fun r => if r ∈ ([] : List FoldingRegion) then flipRegion r else r) =
          fun r : FoldingRegion => r from by
        funext r
        simp]
      exact List.map_id _
    rw [this]

/-- C5 witness: the concrete sample state (enabled, model attached, one
collapsed region 3-6 whose decoration 1 still resolves to line 3) round-trips:
restoring its own snapshot leaves the folding model unchanged. -/
theorem save_restore_roundtrip_witness :
    restoreViewState sampleState (some (saveViewState sampleState)) =
      sampleState.foldingModel :=
  save_restore_roundtrip sampleState sampleModel rfl rfl
    (by decide) (by decide)
    (by
      intro x hx hcoll id hid rg hrg
      have hx' : x = sampleRegion := List.mem_singleton.mp hx
      subst hx'
      have h1 : (1 : Nat) = id := Option.some.inj hid
      subst h1
      have h2 : some (⟨3, 1, 6, 1⟩ : Range) = some rg := by
        rw [← hrg]; decide
      rw [← Option.some.inj h2]
      decide)

end Folding
